import Mathlib

/-!
Verification development for the `openclaw-costs` repository.

The repository consists of two JavaScript source files:

* `scripts/cost-hook.mjs` — patches `globalThis.fetch`, observes Anthropic
  API calls, extracts token usage from streaming (SSE) and non-streaming
  response bodies, estimates cost from a static pricing table and appends
  one JSON line per observed call to a size-rotated log file;
* `scripts/cost-report.mjs` — reads the log back, normalizes raw context
  labels into canonical buckets, groups calls, and renders summary / top /
  alerts / report views including rule-based issue detection.

This file is a shallow embedding of those programs in Lean.  JavaScript
numbers are modelled as exact rationals (`ℚ`), strings as Lean `String`
(operated on at `Char`-list granularity so that every operation is a
structural, kernel-computable function), JSON values as an inductive type
with an executable parser, and the file system touched by the record sink
as an explicit state record.  Host-library behaviours used by the source
(`String.prototype` methods, `JSON.parse`, `Math.round`, stable
`Array.prototype.sort`, `ReadableStream.tee`) are modelled by the
corresponding Lean functions defined below next to their first use.
-/

namespace OpenclawCosts

/-! ## Character-level string primitives

JavaScript string methods used by the source, modelled over `List Char`
(`String.prototype.includes`, `startsWith`, `trim`, `split`,
`toLowerCase`, `slice`).  These mirror the UTF-16-code-unit semantics at
character granularity, which coincides for every string the source
manipulates. -/

/-- Model of `a.startsWith(b)`: the second list is a prefix of the first. -/
def listStartsWith : List Char → List Char → Bool
  | _, [] => true
  | [], _ :: _ => false
  | a :: as, b :: bs => a = b && listStartsWith as bs

/-- Model of `a.includes(b)`: the second list occurs contiguously in the first. -/
def listIncludes : List Char → List Char → Bool
  | [], pat => pat.isEmpty
  | a :: tl, pat => listStartsWith (a :: tl) pat || listIncludes tl pat

/-- Model of `s.includes(sub)` on strings. -/
def strIncludes (s sub : String) : Bool :=
  listIncludes s.toList sub.toList

/-- Model of `s.startsWith(p)` on strings. -/
def strStartsWith (s p : String) : Bool :=
  listStartsWith s.toList p.toList

/-- Whitespace recognized by `String.prototype.trim` (the code points that
occur in practice; the full ECMAScript set also has exotic Unicode spaces). -/
def isJsSpace (c : Char) : Bool :=
  c = ' ' || c = '\t' || c = '\n' || c = '\r' ||
  c.toNat = 0x0b || c.toNat = 0x0c || c.toNat = 0xa0 || c.toNat = 0xfeff

/-- Model of `s.trim()`. -/
def trimChars (l : List Char) : List Char :=
  ((l.dropWhile isJsSpace).reverse.dropWhile isJsSpace).reverse

/-- Model of `s.split(sep)` for a one-character separator (the source only
splits on `'\n'`). -/
def splitOnChar (sep : Char) : List Char → List (List Char)
  | [] => [[]]
  | c :: cs =>
    let rest := splitOnChar sep cs
    if c = sep then [] :: rest
    else
      match rest with
      | r :: rs => (c :: r) :: rs
      | [] => [[c]]

/-- Model of `String.prototype.toLowerCase` restricted to the alphabets the
source's pattern table uses: ASCII `A`–`Z` and Cyrillic `А`–`Я`/`Ё`.  Other
characters are unchanged. -/
def jsToLower (c : Char) : Char :=
  if 'A' ≤ c && c ≤ 'Z' then Char.ofNat (c.toNat + 32)
  else if c.toNat ≥ 0x410 && c.toNat ≤ 0x42f then Char.ofNat (c.toNat + 32)
  else if c.toNat = 0x401 then Char.ofNat 0x451
  else c

/-- Lowercasing a whole string. -/
def jsToLowerStr (s : String) : String :=
  String.mk (s.toList.map jsToLower)

/-! ## Pricing table and cost estimator (`cost-hook.mjs`, lines 22–57) -/

/-- One pricing entry: USD per million tokens for each token class. -/
structure Pricing where
  «in» : ℚ
  out : ℚ
  cache_read : ℚ
  cache_write : ℚ
deriving DecidableEq

/-- The `PRICING` constant of `cost-hook.mjs`. -/
def PRICING : List (String × Pricing) :=
  [ ("claude-sonnet-4-5-20250929", { «in» := 3.0, out := 15.0, cache_read := 0.30, cache_write := 3.75 }),
    ("claude-sonnet-4-20250514",   { «in» := 3.0, out := 15.0, cache_read := 0.30, cache_write := 3.75 }),
    ("claude-opus-4-20250514",     { «in» := 15.0, out := 75.0, cache_read := 1.50, cache_write := 18.75 }),
    ("claude-haiku-4-5-20251001",  { «in» := 0.80, out := 4.0, cache_read := 0.08, cache_write := 1.0 }) ]

/-- The `DEFAULT_PRICING` constant. -/
def DEFAULT_PRICING : Pricing :=
  { «in» := 3.0, out := 15.0, cache_read := 0.30, cache_write := 3.75 }

/-- The pricing entry used for a model: `PRICING[model] || DEFAULT_PRICING`
(a present entry is always truthy, so `||` is exactly the default
fallback). -/
def priceFor (model : String) : Pricing :=
  (PRICING.lookup model).getD DEFAULT_PRICING

/-- `estimateCost` of `cost-hook.mjs`: each token count times its per-million
rate. -/
def estimateCost (model : String) (inTok outTok cacheRead cacheWrite : ℚ) : ℚ :=
  let p := priceFor model
  inTok * p.«in» / 1000000 +
  outTok * p.out / 1000000 +
  cacheRead * p.cache_read / 1000000 +
  cacheWrite * p.cache_write / 1000000

/-- Model of `Math.round` on exact rationals (half rounds up, toward `+∞`). -/
def jsRound (q : ℚ) : ℤ := ⌊q + 1/2⌋

/-- Model of `Math.round(x * 1e6) / 1e6`: rounding to 6 decimal places. -/
def round6 (q : ℚ) : ℚ := (jsRound (q * 1000000) : ℚ) / 1000000

/-! ## Call records (the JSONL entries written by `appendLog`) -/

/-- One call record exactly as assembled in the two `appendLog` call sites of
`cost-hook.mjs`.  Token counts are JavaScript numbers, hence `ℚ`. -/
structure CallRecord where
  ts : ℕ
  model : String
  ctx : String
  preview : String
  input_tokens : ℚ
  output_tokens : ℚ
  cache_read : ℚ
  cache_write : ℚ
  cost : ℚ
  latency_ms : ℕ
  stream : Bool
deriving DecidableEq

/-! ## Record sink (`rotateIfNeeded` / `appendLog`, `cost-hook.mjs` lines 34–47)

The file system is modelled as the two paths the sink can touch: the active
log `calls.jsonl` and the single rotation slot `calls.jsonl.old`.  A file
carries its content together with the byte size `statSync` reports. -/

/-- A file on disk: its text content and its size in bytes as reported by
`statSync(...).size`. -/
structure FileData where
  content : String
  size : ℕ
deriving DecidableEq

/-- The part of the file system the sink touches: `calls.jsonl` and
`calls.jsonl.old` (`none` = the path does not exist). -/
structure SinkState where
  log : Option FileData
  old : Option FileData
deriving DecidableEq

/-- The `MAX_FILE_SIZE` constant: 50 MiB. -/
def MAX_FILE_SIZE : ℕ := 50 * 1024 * 1024

/-- `rotateIfNeeded`: if the log exists and its size exceeds the threshold,
`renameSync` moves it onto the `.old` path (overwriting any previous `.old`,
so there is always at most one rotation slot). -/
def rotateIfNeeded (fs : SinkState) : SinkState :=
  match fs.log with
  | some fd => if fd.size > MAX_FILE_SIZE then { log := none, old := some fd } else fs
  | none => fs

/-- `writeFileSync(LOG_FILE, line, { flag: 'a' })`: append to the log,
creating it when absent. -/
def writeAppend (fs : SinkState) (line : String) : SinkState :=
  match fs.log with
  | some fd => { fs with log := some ⟨fd.content ++ line, fd.size + line.utf8ByteSize⟩ }
  | none => { fs with log := some ⟨line, line.utf8ByteSize⟩ }

/-- `appendLog(entry)`: rotate if needed, then append the serialized entry
followed by a newline.  `serialized` stands for `JSON.stringify(entry)`. -/
def appendLog (fs : SinkState) (serialized : String) : SinkState :=
  writeAppend (rotateIfNeeded fs) (serialized ++ "\n")

/-! ## JSON values and an executable model of `JSON.parse`

The source calls the host's `JSON.parse` on request bodies, SSE event
payloads and response bodies.  We model JSON values as an inductive type and
`JSON.parse` as a fuel-indexed recursive-descent parser over the character
list (strict JSON: no trailing input, no leading zeros, control characters
in strings must be escaped). -/

/-- A JSON value.  Object fields are kept in textual order; on duplicate keys
property access sees the last one, as `JSON.parse` does. -/
inductive Json where
  | null
  | bool (b : Bool)
  | num (q : ℚ)
  | str (s : String)
  | arr (xs : List Json)
  | obj (fields : List (String × Json))

/-- Property access `j.k` for an object (last duplicate key wins, matching
`JSON.parse`); `none` models JavaScript `undefined`, which is also what
property access on any non-object value yields in the expressions the source
evaluates. -/
def Json.getField (j : Json) (k : String) : Option Json :=
  match j with
  | .obj fs => fs.reverse.lookup k
  | _ => none

/-- JavaScript truthiness of a parsed JSON value (`!!v`, `v || d`). -/
def jsTruthy (v : Json) : Bool :=
  match v with
  | .null => false
  | .bool b => b
  | .num q => !(q = 0)
  | .str s => !(s = "")
  | .arr _ => true
  | .obj _ => true

/-- The coercion the source applies to usage counters: `u.f || 0` where a
well-formed payload stores a number (a missing field, `undefined` from a
non-object access, or any falsy value yields `0`; non-numeric truthy usage
values never occur in the modelled protocol). -/
def jsNumOr0 : Option Json → ℚ
  | some (.num q) => q
  | _ => 0

/-- The coercion for model names: `v || fallback` where a well-formed payload
stores a string (the API's `model` field is always a string when present). -/
def jsStrOr (v : Option Json) (fallback : String) : String :=
  match v with
  | some (.str s) => if s = "" then fallback else s
  | _ => fallback

/-- Skip JSON inter-token whitespace. -/
def skipWs (cs : List Char) : List Char :=
  cs.dropWhile fun c => c = ' ' || c = '\t' || c = '\n' || c = '\r'

/-- Value of a digit list, most significant first. -/
def digitsToNat (l : List Char) : ℕ :=
  l.foldl (fun n c => 10 * n + (c.toNat - 48)) 0

/-- Hex digit value, for `\uXXXX` escapes. -/
def hexVal (c : Char) : Option ℕ :=
  if '0' ≤ c && c ≤ '9' then some (c.toNat - 48)
  else if 'a' ≤ c && c ≤ 'f' then some (c.toNat - 87)
  else if 'A' ≤ c && c ≤ 'F' then some (c.toNat - 55)
  else none

/-- Parse the body of a JSON string after the opening quote; returns the
decoded characters and the rest of the input. -/
def parseStrBody : List Char → Option (List Char × List Char)
  | [] => none
  | '"' :: rest => some ([], rest)
  | '\\' :: esc =>
    match esc with
    | '"' :: rest => (parseStrBody rest).map fun (s, r) => ('"' :: s, r)
    | '\\' :: rest => (parseStrBody rest).map fun (s, r) => ('\\' :: s, r)
    | '/' :: rest => (parseStrBody rest).map fun (s, r) => ('/' :: s, r)
    | 'b' :: rest => (parseStrBody rest).map fun (s, r) => ('\x08' :: s, r)
    | 'f' :: rest => (parseStrBody rest).map fun (s, r) => ('\x0c' :: s, r)
    | 'n' :: rest => (parseStrBody rest).map fun (s, r) => ('\n' :: s, r)
    | 'r' :: rest => (parseStrBody rest).map fun (s, r) => ('\r' :: s, r)
    | 't' :: rest => (parseStrBody rest).map fun (s, r) => ('\t' :: s, r)
    | 'u' :: a :: b :: c :: d :: rest =>
      match hexVal a, hexVal b, hexVal c, hexVal d with
      | some ha, some hb, some hc, some hd =>
        (parseStrBody rest).map fun (s, r) =>
          (Char.ofNat (((ha * 16 + hb) * 16 + hc) * 16 + hd) :: s, r)
      | _, _, _, _ => none
    | _ => none
  | c :: rest =>
    if c.toNat < 32 then none
    else (parseStrBody rest).map fun (s, r) => (c :: s, r)

/-- Parse a JSON number (integer part, optional fraction, optional exponent). -/
def parseNumber (cs : List Char) : Option (ℚ × List Char) :=
  let (sgn, cs₁) : ℚ × List Char :=
    match cs with
    | '-' :: rest => (-1, rest)
    | _ => (1, cs)
  let intDigits := cs₁.takeWhile Char.isDigit
  let cs₂ := cs₁.dropWhile Char.isDigit
  if intDigits.isEmpty then none
  else if intDigits.head? = some '0' ∧ intDigits.length > 1 then none
  else
    let ipart : ℚ := (digitsToNat intDigits : ℚ)
    let (mant, cs₃) : ℚ × List Char :=
      match cs₂ with
      | '.' :: rest =>
        let fracDigits := rest.takeWhile Char.isDigit
        (ipart + (digitsToNat fracDigits : ℚ) / (10 ^ fracDigits.length : ℚ),
         rest.dropWhile Char.isDigit)
      | _ => (ipart, cs₂)
    let fracOk : Bool :=
      match cs₂ with
      | '.' :: rest => !(rest.takeWhile Char.isDigit).isEmpty
      | _ => true
    if !fracOk then none
    else
      match cs₃ with
      | e :: rest =>
        if e = 'e' ∨ e = 'E' then
          let (esgn, rest₁) : Bool × List Char :=
            match rest with
            | '-' :: r => (true, r)
            | '+' :: r => (false, r)
            | _ => (false, rest)
          let expDigits := rest₁.takeWhile Char.isDigit
          if expDigits.isEmpty then none
          else
            let ev := digitsToNat expDigits
            let scaled := if esgn then mant / (10 ^ ev : ℚ) else mant * (10 ^ ev : ℚ)
            some (sgn * scaled, rest₁.dropWhile Char.isDigit)
        else some (sgn * mant, cs₃)
      | [] => some (sgn * mant, cs₃)

mutual

/-- Parse one JSON value; `fuel` bounds the recursion depth. -/
def parseVal : ℕ → List Char → Option (Json × List Char)
  | 0, _ => none
  | fuel + 1, cs =>
    match skipWs cs with
    | [] => none
    | 'n' :: 'u' :: 'l' :: 'l' :: rest => some (.null, rest)
    | 't' :: 'r' :: 'u' :: 'e' :: rest => some (.bool true, rest)
    | 'f' :: 'a' :: 'l' :: 's' :: 'e' :: rest => some (.bool false, rest)
    | '"' :: rest =>
      (parseStrBody rest).map fun (s, r) => (.str (String.mk s), r)
    | '[' :: rest => (parseArrItems fuel rest).map fun (xs, r) => (.arr xs, r)
    | '{' :: rest => (parseObjItems fuel rest).map fun (fs, r) => (.obj fs, r)
    | other => parseNumber other |>.map fun (q, r) => (.num q, r)

/-- Parse the items of an array, after the opening bracket. -/
def parseArrItems : ℕ → List Char → Option (List Json × List Char)
  | 0, _ => none
  | fuel + 1, cs =>
    match skipWs cs with
    | ']' :: rest => some ([], rest)
    | other =>
      match parseVal fuel other with
      | none => none
      | some (v, r) =>
        match parseArrMore fuel r with
        | none => none
        | some (vs, r') => some (v :: vs, r')

/-- Parse `, value`* `]` after one array item. -/
def parseArrMore : ℕ → List Char → Option (List Json × List Char)
  | 0, _ => none
  | fuel + 1, cs =>
    match skipWs cs with
    | ']' :: rest => some ([], rest)
    | ',' :: rest =>
      match parseVal fuel rest with
      | none => none
      | some (v, r) =>
        match parseArrMore fuel r with
        | none => none
        | some (vs, r') => some (v :: vs, r')
    | _ => none

/-- Parse the members of an object, after the opening brace. -/
def parseObjItems : ℕ → List Char → Option (List (String × Json) × List Char)
  | 0, _ => none
  | fuel + 1, cs =>
    match skipWs cs with
    | '}' :: rest => some ([], rest)
    | other =>
      match parseMember fuel other with
      | none => none
      | some (kv, r) =>
        match parseObjMore fuel r with
        | none => none
        | some (kvs, r') => some (kv :: kvs, r')

/-- Parse `, member`* `}` after one object member. -/
def parseObjMore : ℕ → List Char → Option (List (String × Json) × List Char)
  | 0, _ => none
  | fuel + 1, cs =>
    match skipWs cs with
    | '}' :: rest => some ([], rest)
    | ',' :: rest =>
      match parseMember fuel rest with
      | none => none
      | some (kv, r) =>
        match parseObjMore fuel r with
        | none => none
        | some (kvs, r') => some (kv :: kvs, r')
    | _ => none

/-- Parse one `"key": value` member. -/
def parseMember : ℕ → List Char → Option ((String × Json) × List Char)
  | 0, _ => none
  | fuel + 1, cs =>
    match skipWs cs with
    | '"' :: rest =>
      match parseStrBody rest with
      | none => none
      | some (k, r) =>
        match skipWs r with
        | ':' :: r' =>
          (parseVal fuel r').map fun (v, r'') => ((String.mk k, v), r'')
        | _ => none
    | _ => none

end

/-- Model of `JSON.parse`: parse one value and require only whitespace to
remain.  The fuel `2·n + 4` dominates the recursion depth of any input of
length `n`. -/
def parseJson (s : String) : Option Json :=
  let cs := s.toList
  match parseVal (2 * cs.length + 4) cs with
  | some (j, rest) => if (skipWs rest).isEmpty then some j else none
  | none => none

/-! ## Streaming usage extractor (`parseSSEUsage`, `cost-hook.mjs` lines 113–134) -/

/-- The four counters accumulated while scanning an SSE body. -/
structure SSEUsage where
  inputTokens : ℚ
  outputTokens : ℚ
  cacheRead : ℚ
  cacheWrite : ℚ
deriving DecidableEq

/-- Processing of one line of the reassembled SSE text: lines not shaped
`data: <payload>` are skipped, `[DONE]` is skipped, unparseable payloads are
skipped (the `try`/`catch`), a `message_start` event overwrites the input and
cache counters from `message.usage`, a `message_delta` event overwrites the
output counter from `usage.output_tokens`. -/
def sseStep (acc : SSEUsage) (line : List Char) : SSEUsage :=
  let trimmed := trimChars line
  if !listStartsWith trimmed ("data: ".toList) then acc
  else
    let data := trimmed.drop 6
    if data = "[DONE]".toList then acc
    else
      match parseJson (String.mk data) with
      | none => acc
      | some obj =>
        match obj.getField "type" with
        | some (.str "message_start") =>
          let u := (obj.getField "message").bind (fun m => m.getField "usage")
          { acc with
            inputTokens := jsNumOr0 (u.bind (fun x => x.getField "input_tokens")),
            cacheRead := jsNumOr0 (u.bind (fun x => x.getField "cache_read_input_tokens")),
            cacheWrite := jsNumOr0 (u.bind (fun x => x.getField "cache_creation_input_tokens")) }
        | some (.str "message_delta") =>
          { acc with
            outputTokens := jsNumOr0 ((obj.getField "usage").bind (fun x => x.getField "output_tokens")) }
        | _ => acc

/-- `parseSSEUsage(text)`: split the reassembled text on newlines and fold
`sseStep` over the lines, starting from all-zero counters. -/
def parseSSEUsage (text : String) : SSEUsage :=
  (splitOnChar '\n' text.toList).foldl sseStep ⟨0, 0, 0, 0⟩

/-- The hook first collects every delivered chunk and only then decodes and
parses: `Buffer.concat(chunks).toString('utf-8')` (`cost-hook.mjs` lines
174–180).  Chunks are modelled at the granularity of the decoded text. -/
def reassemble (chunks : List String) : String :=
  String.join chunks

/-- End-to-end streaming extraction: reassemble the delivered chunks, then
parse the whole text. -/
def streamExtract (chunks : List String) : SSEUsage :=
  parseSSEUsage (reassemble chunks)

/-! ## The hook's record construction (`cost-hook.mjs` lines 146–229) -/

/-- Parsing of the outgoing request body (`cost-hook.mjs` lines 151–158):
`model = body.model || 'unknown'`, `streaming = !!body.stream`; a missing or
unparseable body leaves the defaults `('unknown', false)`. -/
def requestMeta (raw : String) : String × Bool :=
  if raw = "" then ("unknown", false)
  else
    match parseJson raw with
    | none => ("unknown", false)
    | some body =>
      (jsStrOr (body.getField "model") "unknown",
       match body.getField "stream" with
       | some v => jsTruthy v
       | none => false)

/-- The streaming branch's logging decision (`cost-hook.mjs` lines 181–194):
a record is assembled and handed to `appendLog` only when
`inputTokens > 0 || outputTokens > 0`. -/
def streamRecord (model ctx preview : String) (ts latency : ℕ) (u : SSEUsage) :
    Option CallRecord :=
  if u.inputTokens > 0 ∨ u.outputTokens > 0 then
    some { ts := ts, model := model, ctx := ctx, preview := preview,
           input_tokens := u.inputTokens, output_tokens := u.outputTokens,
           cache_read := u.cacheRead, cache_write := u.cacheWrite,
           cost := round6 (estimateCost model u.inputTokens u.outputTokens u.cacheRead u.cacheWrite),
           latency_ms := latency, stream := true }
  else none

/-- The non-streaming branch (`cost-hook.mjs` lines 204–225): the cloned
body is parsed as JSON (`data`); if `data?.usage` is missing or falsy no
record is produced, otherwise a record is assembled with each token field
read as `u.f || 0`, the model `data.model || model`, and the rounded
estimated cost — and handed to `appendLog` unconditionally. -/
def processNonStreaming (reqModel ctx preview : String) (ts latency : ℕ)
    (data : Json) : Option CallRecord :=
  match data.getField "usage" with
  | none => none
  | some u =>
    if jsTruthy u then
      let inTok := jsNumOr0 (u.getField "input_tokens")
      let outTok := jsNumOr0 (u.getField "output_tokens")
      let cr := jsNumOr0 (u.getField "cache_read_input_tokens")
      let cw := jsNumOr0 (u.getField "cache_creation_input_tokens")
      let usedModel := jsStrOr (data.getField "model") reqModel
      some { ts := ts, model := usedModel, ctx := ctx, preview := preview,
             input_tokens := inTok, output_tokens := outTok,
             cache_read := cr, cache_write := cw,
             cost := round6 (estimateCost usedModel inTok outTok cr cw),
             latency_ms := latency, stream := false }
    else none

/-! ## The fetch wrapper (`cost-hook.mjs` lines 137–229)

The wrapper is modelled as a function of the request (URL plus the string
body the hook can see) and of the original fetch's behaviour, given as an
oracle `ofetch` that the wrapper calls on the very same request — mirroring
`originalFetch.call(this, input, init)`, which forwards the arguments
unchanged in every branch.  A thrown/rejected outcome is `Except.error`.
Response bodies are `ReadableStream` handles; `tee` hands out two fresh
streams carrying the same bytes, modelled by fresh handles. -/

/-- The observable part of a fetch `Response`: status, status text, headers
and the body stream handle (`none` = null body).  `ok` is derived from the
status, as in the fetch specification. -/
structure JsResponse where
  status : ℕ
  statusText : String
  headers : List (String × String)
  body : Option ℕ
deriving DecidableEq

/-- `response.ok`: status in the 200–299 range. -/
def JsResponse.isOk (r : JsResponse) : Bool :=
  200 ≤ r.status && r.status ≤ 299

/-- `ReadableStream.tee()`: two fresh stream handles fed by the original. -/
def teeStream (h : ℕ) : ℕ × ℕ := (2 * h + 1, 2 * h + 2)

/-- A fetch request as the hook inspects it: the resolved URL and the string
request body (`none` when `init?.body` is not a string). -/
structure FetchRequest where
  url : String
  rawBody : Option String
deriving DecidableEq

/-- The interception guard (`cost-hook.mjs` line 142): only URLs containing
both the API host and the messages path are observed. -/
def interceptsUrl (url : String) : Bool :=
  strIncludes url "api.anthropic.com" && strIncludes url "/v1/messages"

/-- The patched `globalThis.fetch`, as a function of the original fetch's
outcome on the same arguments.  Unmatched calls pass straight through.  For
matched calls the original call's rejection propagates unchanged; a matched
streaming `ok` response with a body is replaced by
`new Response(returnStream, { status, statusText, headers })` built on the
second branch of the teed body; every other matched response is returned as
is (the non-streaming branch only reads `response.clone()`, which leaves the
returned object untouched). -/
def patchedFetch (ofetch : FetchRequest → Except String JsResponse)
    (req : FetchRequest) : Except String JsResponse :=
  if !interceptsUrl req.url then ofetch req
  else
    let streaming := (requestMeta (req.rawBody.getD "")).2
    match ofetch req with
    | .error e => .error e
    | .ok response =>
      match response.body with
      | some h =>
        if streaming && response.isOk then
          .ok { status := response.status, statusText := response.statusText,
                headers := response.headers, body := some (teeStream h).2 }
        else .ok response
      | none => .ok response

/-! ## Context normalization (`cost-report.mjs`, `normalizeContext`) -/

/-- The character class `[—–-]` of the first slug rewrite: em dash, en dash,
hyphen. -/
def isDashChar (c : Char) : Bool :=
  c.toNat = 0x2014 || c.toNat = 0x2013 || c = '-'

/-- The regex class `\w`: ASCII letters, digits and underscore. -/
def isWordChar (c : Char) : Bool :=
  ('a' ≤ c && c ≤ 'z') || ('A' ≤ c && c ≤ 'Z') || ('0' ≤ c && c ≤ '9') || c = '_'

/-- Model of a global regex replace of every maximal run of `p`-characters by
the single character `r` (`/[…]+/g → r`).  The boolean tracks whether the
previous character belonged to a run. -/
def collapseRuns (p : Char → Bool) (r : Char) : Bool → List Char → List Char
  | _, [] => []
  | inRun, c :: cs =>
    if p c then
      if inRun then collapseRuns p r true cs
      else r :: collapseRuns p r true cs
    else c :: collapseRuns p r false cs

/-- Model of `/^-|-$/g → ''`: drop one leading and one trailing hyphen. -/
def stripEdgeDashes (l : List Char) : List Char :=
  let l₁ := match l with | '-' :: rest => rest | other => other
  (match l₁.reverse with | '-' :: rest => rest | other => other).reverse

/-- The cron-label slug of `normalizeContext` (applied to `ctx.slice(5)`):
lowercase, dashes collapsed, non-word/space/hyphen characters removed,
whitespace runs turned into hyphens, hyphen runs collapsed, edge hyphens
stripped, truncated to 40 characters. -/
def cronSlug (s : String) : String :=
  let l₀ := (jsToLowerStr s).toList
  let l₁ := collapseRuns isDashChar '-' false l₀
  let l₂ := l₁.filter fun c => isWordChar c || isJsSpace c || c = '-'
  let l₃ := collapseRuns isJsSpace '-' false l₂
  let l₄ := collapseRuns (fun c => c = '-') '-' false l₃
  String.mk ((stripEdgeDashes l₄).take 40)

/-- `normalizeContext` of `cost-report.mjs`, as the literal cascade of the
source: empty labels are `"unknown"`, `cron:` labels are slugged,
the literal `"compaction"` and `system:` prefixes short-circuit, then the
lowercased label is matched against the known substring patterns in order,
and anything left becomes `"session"`. -/
def normalizeContext (ctx : String) : String :=
  if ctx = "" then "unknown"
  else if strStartsWith ctx "cron:" then cronSlug (ctx.drop 5)
  else if ctx = "compaction" then "compaction"
  else if strStartsWith ctx "system:" then "session"
  else
    let lower := jsToLowerStr ctx
    if strIncludes lower "compacted into the following summary" then "compaction"
    else if strIncludes lower "jobs-monitor" || strIncludes lower "вакансий" then "jobs-monitor"
    else if strIncludes lower "reddit-monitor" || strIncludes lower "подборку интересных постов" then "reddit-monitor"
    else if strIncludes lower "reddit-seo-digest" || strIncludes lower "r/seo digest" then "reddit-seo-digest"
    else if strIncludes lower "product hunt" || strIncludes lower "producthunt" then "product-hunt"
    else if strIncludes lower "moltbook" then "moltbook"
    else if strIncludes lower "gmail" || strIncludes lower "входящие письма" then "gmail-digest"
    else if strIncludes lower "flashcard" || strIncludes lower "morning greek" then "greek-flashcards"
    else if strIncludes lower "греческого урока" || strIncludes lower "greek lesson" then "greek-lesson"
    else if strIncludes lower "weekly greek test" then "greek-test"
    else if strIncludes lower "seo analysis" || strIncludes lower "seo deep dive" then "seo-analysis"
    else if strIncludes lower "memory maintenance" then "memory-maintenance"
    else "session"

/-- The ordered pattern table of the normalization stage, written out as the
spec describes it: a fixed, ordered list of (substring patterns, canonical
label) pairs. -/
def CONTEXT_PATTERNS : List (List String × String) :=
  [ (["compacted into the following summary"], "compaction"),
    (["jobs-monitor", "вакансий"], "jobs-monitor"),
    (["reddit-monitor", "подборку интересных постов"], "reddit-monitor"),
    (["reddit-seo-digest", "r/seo digest"], "reddit-seo-digest"),
    (["product hunt", "producthunt"], "product-hunt"),
    (["moltbook"], "moltbook"),
    (["gmail", "входящие письма"], "gmail-digest"),
    (["flashcard", "morning greek"], "greek-flashcards"),
    (["греческого урока", "greek lesson"], "greek-lesson"),
    (["weekly greek test"], "greek-test"),
    (["seo analysis", "seo deep dive"], "seo-analysis"),
    (["memory maintenance"], "memory-maintenance") ]

/-- First-match-wins lookup of a lowercased label in the pattern table: the
spec-side description of the normalization stage, to be compared with the
cascade of `normalizeContext`. -/
def patternLabel (lower : String) : Option String :=
  CONTEXT_PATTERNS.findSome? fun e =>
    if e.1.any (fun p => strIncludes lower p) then some e.2 else none

/-! ## Grouping and views (`cost-report.mjs`, `groupByContext` and commands) -/

/-- The `MODEL_SHORT` display-name table. -/
def MODEL_SHORT : List (String × String) :=
  [ ("claude-sonnet-4-5-20250929", "sonnet-4.5"),
    ("claude-sonnet-4-20250514", "sonnet-4"),
    ("claude-opus-4-20250514", "opus-4"),
    ("claude-haiku-4-5-20251001", "haiku-4.5") ]

/-- `shortModel(m)`: the display name, or the identifier itself. -/
def shortModel (m : String) : String :=
  (MODEL_SHORT.lookup m).getD m

/-- The `CHEAP_MODELS` set. -/
def CHEAP_MODELS : List String := ["claude-haiku-4-5-20251001"]

/-- The `SUMMARIZATION_PATTERNS` list. -/
def SUMMARIZATION_PATTERNS : List String :=
  ["gmail", "reddit", "moltbook", "product-hunt", "producthunt",
   "monitor", "digest", "flashcard", "heartbeat"]

/-- One aggregation group: the calls sharing a normalized context, with the
derived totals `groupByContext` maintains. -/
structure ContextGroup where
  calls : List CallRecord
  cost : ℚ
  tokens_in : ℚ
  tokens_out : ℚ
  models : List (String × ℕ)
deriving DecidableEq

/-- A fresh group, as created on first sight of a context. -/
def emptyGroup : ContextGroup :=
  { calls := [], cost := 0, tokens_in := 0, tokens_out := 0, models := [] }

/-- `g.models[m] = (g.models[m] || 0) + 1` on an insertion-ordered table. -/
def bumpModel : List (String × ℕ) → String → List (String × ℕ)
  | [], m => [(m, 1)]
  | (k, n) :: rest, m =>
    if k = m then (k, n + 1) :: rest else (k, n) :: bumpModel rest m

/-- Folding one call into its group: push the call, accumulate cost and
token totals, tally the short model name. -/
def addToGroup (g : ContextGroup) (c : CallRecord) : ContextGroup :=
  { calls := g.calls ++ [c],
    cost := g.cost + c.cost,
    tokens_in := g.tokens_in + c.input_tokens,
    tokens_out := g.tokens_out + c.output_tokens,
    models := bumpModel g.models (shortModel c.model) }

/-- Insert one call under its key in the insertion-ordered group table
(JavaScript object string keys enumerate in insertion order). -/
def addCall : List (String × ContextGroup) → String → CallRecord →
    List (String × ContextGroup)
  | [], k, c => [(k, addToGroup emptyGroup c)]
  | (k', g) :: rest, k, c =>
    if k' = k then (k', addToGroup g c) :: rest
    else (k', g) :: addCall rest k c

/-- `groupByContext(calls)`. -/
def groupByContext (calls : List CallRecord) : List (String × ContextGroup) :=
  calls.foldl (fun gs c => addCall gs (normalizeContext c.ctx) c) []

/-- `calls.reduce((s, c) => s + (c.cost || 0), 0)`. -/
def costSum (l : List CallRecord) : ℚ :=
  l.foldl (fun s c => s + c.cost) 0

/-- Stable insertion step of a descending sort by `key`: the new element goes
after every element with a key at least as large, which is exactly the order
a stable `Array.prototype.sort` with comparator `(a, b) => key b - key a`
produces. -/
def insertByDesc {α : Type} (key : α → ℚ) (x : α) : List α → List α
  | [] => [x]
  | y :: ys => if key x ≤ key y then y :: insertByDesc key x ys else x :: y :: ys

/-- Model of the stable descending sort `arr.sort((a, b) => key b - key a)`. -/
def sortByDesc {α : Type} (key : α → ℚ) (l : List α) : List α :=
  l.foldl (fun acc x => insertByDesc key x acc) []

/-- `Object.entries(groups).sort((a, b) => b[1].cost - a[1].cost)` — the
sorted group table shared by `cmdTop` and `cmdReport`. -/
def topEntries (calls : List CallRecord) : List (String × ContextGroup) :=
  sortByDesc (fun e => e.2.cost) (groupByContext calls)

/-- The rows `cmdTop` prints: the first `limit` sorted groups. -/
def topView (calls : List CallRecord) (limit : ℕ) : List (String × ContextGroup) :=
  (topEntries calls).take limit

/-- The percentage `cmdTop` computes for a group:
`totalCost > 0 ? g.cost / totalCost * 100 : 0`. -/
def pctOf (totalCost : ℚ) (g : ContextGroup) : ℚ :=
  if totalCost > 0 then g.cost / totalCost * 100 else 0

/-- The percentages of all context groups, summed. -/
def pctSum (calls : List CallRecord) : ℚ :=
  ((groupByContext calls).map fun e => pctOf (costSum calls) e.2).sum

/-- `cmdAlerts`: the calls at or above the threshold, sorted descending by
cost (`cost-report.mjs` line 453). -/
def alertsView (calls : List CallRecord) (threshold : ℚ) : List CallRecord :=
  sortByDesc (fun c => c.cost) (calls.filter fun c => threshold ≤ c.cost)

/-! ## Weekly-report issue rules (`cmdReport`, `cost-report.mjs` lines 546–589) -/

/-- The structured content of the issue lines `cmdReport` pushes. -/
inductive ReportIssue where
  | compactionLoop (count : ℕ) (totalCost : ℚ)
  | modelMisuse (ctx : String) (count : ℕ) (cost savings : ℚ)
  | expensiveCalls (count : ℕ) (totalCost : ℚ)
deriving DecidableEq

/-- `calls.filter(c => normalizeContext(c.ctx) === 'compaction')`. -/
def compactionBucket (calls : List CallRecord) : List CallRecord :=
  calls.filter fun c => normalizeContext c.ctx = "compaction"

/-- `SUMMARIZATION_PATTERNS.some(p => ctx.includes(p))`. -/
def isSummarizationCtx (ctx : String) : Bool :=
  SUMMARIZATION_PATTERNS.any fun p => strIncludes ctx p

/-- The model-misuse rule applied to one sorted group entry: a
summarization-pattern context with at least one call outside `CHEAP_MODELS`
is flagged, with savings `sonnetCost - sonnetCost * 0.08`. -/
def misuseCheck (e : String × ContextGroup) : Option ReportIssue :=
  if isSummarizationCtx e.1 then
    let sonnetCalls := e.2.calls.filter fun c => !(CHEAP_MODELS.contains c.model)
    if sonnetCalls.length > 0 then
      let sonnetCost := costSum sonnetCalls
      some (.modelMisuse e.1 sonnetCalls.length sonnetCost
              (sonnetCost - sonnetCost * (8 / 100)))
    else none
  else none

/-- Per-issue contribution to `estimatedSavings` (the compaction rule adds
its share separately, the expensive-calls rule adds none). -/
def issueSavings : ReportIssue → ℚ
  | .modelMisuse _ _ _ sv => sv
  | _ => 0

/-- The issue-detection part of `cmdReport`: the compaction-volume rule
(fires on strictly more than 10 calls in the canonical compaction bucket,
adding 70 % of that bucket's cost to the estimated savings), the
model-misuse rule over the sorted groups, and the expensive-single-calls
rule (cost above $0.50, no savings contribution).  Returns the issue list
and `estimatedSavings`. -/
def detectIssues (calls : List CallRecord) : List ReportIssue × ℚ :=
  let cc := compactionBucket calls
  let compIssues : List ReportIssue :=
    if cc.length > 10 then [.compactionLoop cc.length (costSum cc)] else []
  let compSavings : ℚ := if cc.length > 10 then costSum cc * (7 / 10) else 0
  let mis := (topEntries calls).filterMap misuseCheck
  let misSav := mis.foldl (fun s i => s + issueSavings i) 0
  let expensive := calls.filter fun c => c.cost > 1 / 2
  let expIssues : List ReportIssue :=
    if expensive.length > 0 then [.expensiveCalls expensive.length (costSum expensive)]
    else []
  (compIssues ++ mis ++ expIssues, compSavings + misSav)

/-! ## Derived quantities and concrete sample inputs used by the theorems -/

/-- The total cost stored across a group table. -/
def groupCost (gs : List (String × ContextGroup)) : ℚ :=
  (gs.map fun e => e.2.cost).sum

/-- A call record with the given context, model and cost and all other
fields fixed, used to build concrete inputs. -/
def mkCall (ctx model : String) (cost : ℚ) : CallRecord :=
  { ts := 0, model := model, ctx := ctx, preview := "",
    input_tokens := 0, output_tokens := 0, cache_read := 0, cache_write := 0,
    cost := cost, latency_ms := 0, stream := false }

/-- The end-to-end weekly-report sample: twelve cheap compaction calls at
$0.01 and three cheap gmail-digest calls at $0.20. -/
def weeklySample : List CallRecord :=
  List.replicate 12 (mkCall "compaction" "claude-haiku-4-5-20251001" (1 / 100)) ++
  List.replicate 3 (mkCall "cron:Gmail Digest" "claude-haiku-4-5-20251001" (1 / 5))

/-- Two calls in distinct contexts with the same cost, exhibiting a tie
between context groups. -/
def tiedPairSample : List CallRecord :=
  [ mkCall "compaction" "claude-sonnet-4-5-20250929" (1 / 20),
    mkCall "Check GMAIL inbox" "claude-sonnet-4-5-20250929" (1 / 20) ]

/-- Two delivered chunk sequences of one streaming body, split at different
byte boundaries (the second cuts in the middle of an event line). -/
def sseChunksA : List String :=
  [ "data: \x7b\"type\":\"message_start\",\"message\":\x7b\"usage\":\x7b\"input_tokens\":7,\"cache_read_input_tokens\":2\x7d\x7d\x7d\n",
    "data: \x7b\"type\":\"message_delta\",\"usage\":\x7b\"output_tokens\":4\x7d\x7d\n" ]

/-- The same reassembled body as `sseChunksA`, delivered in different chunks. -/
def sseChunksB : List String :=
  [ "data: \x7b\"type\":\"message_sta",
    "rt\",\"message\":\x7b\"usage\":\x7b\"input_tokens\":7,\"cache_read_input_tokens\":2\x7d\x7d\x7d\ndata: \x7b\"type\":\"",
    "message_delta\",\"usage\":\x7b\"output_tokens\":4\x7d\x7d\n" ]

/-- The record the non-streaming branch produces for a response naming
`claude-opus-4-20250514` with one input token, after a request that named
`claude-sonnet-4-5-20250929`. -/
def mkC10record : CallRecord :=
  { ts := 1, model := "claude-opus-4-20250514", ctx := "c", preview := "p",
    input_tokens := 1, output_tokens := 0, cache_read := 0, cache_write := 0,
    cost := round6 (estimateCost "claude-opus-4-20250514" 1 0 0 0),
    latency_ms := 2, stream := false }

/-! ## Helper lemmas about the stable descending sort -/

theorem mem_insertByDesc {α : Type} (key : α → ℚ) (x a : α) :
    ∀ {l : List α}, a ∈ insertByDesc key x l ↔ a = x ∨ a ∈ l := by
  intro l
  induction l with
  | nil => simp [insertByDesc]
  | cons y ys ih =>
    simp only [insertByDesc]
    split
    · simp only [List.mem_cons, ih]
      tauto
    · simp only [List.mem_cons]

theorem pairwise_insertByDesc {α : Type} (key : α → ℚ) (x : α) {l : List α}
    (h : l.Pairwise fun a b => key b ≤ key a) :
    (insertByDesc key x l).Pairwise fun a b => key b ≤ key a := by
  induction l with
  | nil => simp [insertByDesc]
  | cons y ys ih =>
    rcases List.pairwise_cons.mp h with ⟨hy, hys⟩
    simp only [insertByDesc]
    split
    case isTrue hle =>
      refine List.pairwise_cons.mpr ⟨?_, ih hys⟩
      intro z hz
      rcases (mem_insertByDesc key x z).mp hz with rfl | hzys
      · exact hle
      · exact hy z hzys
    case isFalse hgt =>
      refine List.pairwise_cons.mpr ⟨?_, h⟩
      intro z hz
      rcases List.mem_cons.mp hz with rfl | hzys
      · exact le_of_not_le hgt
      · exact le_trans (hy z hzys) (le_of_not_le hgt)

theorem pairwise_sortByDesc {α : Type} (key : α → ℚ) (l : List α) :
    (sortByDesc key l).Pairwise fun a b => key b ≤ key a := by
  have main : ∀ (m : List α) (acc : List α),
      acc.Pairwise (fun a b => key b ≤ key a) →
      (m.foldl (fun acc x => insertByDesc key x acc) acc).Pairwise
        (fun a b => key b ≤ key a) := by
    intro m
    induction m with
    | nil => intro acc h; simpa using h
    | cons x xs ih =>
      intro acc h
      exact ih _ (pairwise_insertByDesc key x h)
  exact main l [] (by simp)

theorem mem_sortByDesc {α : Type} (key : α → ℚ) (a : α) (l : List α) :
    a ∈ sortByDesc key l ↔ a ∈ l := by
  have main : ∀ (m : List α) (acc : List α),
      a ∈ m.foldl (fun acc x => insertByDesc key x acc) acc ↔ a ∈ acc ∨ a ∈ m := by
    intro m
    induction m with
    | nil => simp
    | cons x xs ih =>
      intro acc
      rw [List.foldl_cons, ih, mem_insertByDesc]
      simp only [List.mem_cons]
      tauto
  simpa using main l []

/-! ## Helper lemmas about grouping and cost totals -/

theorem costSum_eq_sum_map (l : List CallRecord) :
    costSum l = (l.map fun c => c.cost).sum := by
  have main : ∀ (m : List CallRecord) (s : ℚ),
      m.foldl (fun s c => s + c.cost) s = s + (m.map fun c => c.cost).sum := by
    intro m
    induction m with
    | nil => simp
    | cons c cs ih =>
      intro s
      simp [List.foldl_cons, ih, add_assoc]
  simpa using main l 0

theorem groupCost_addCall (gs : List (String × ContextGroup)) (k : String)
    (c : CallRecord) : groupCost (addCall gs k c) = groupCost gs + c.cost := by
  induction gs with
  | nil => simp [addCall, groupCost, addToGroup, emptyGroup]
  | cons e rest ih =>
    obtain ⟨k', g⟩ := e
    simp only [addCall]
    split
    · simp [groupCost, addToGroup, add_assoc, add_comm, add_left_comm]
    · simp only [groupCost, List.map_cons, List.sum_cons] at ih ⊢
      rw [ih]
      ring

theorem groupCost_groupByContext (calls : List CallRecord) :
    groupCost (groupByContext calls) = costSum calls := by
  have main : ∀ (m : List CallRecord) (acc : List (String × ContextGroup)),
      groupCost (m.foldl (fun gs c => addCall gs (normalizeContext c.ctx) c) acc) =
        groupCost acc + (m.map fun c => c.cost).sum := by
    intro m
    induction m with
    | nil => simp
    | cons c cs ih =>
      intro acc
      rw [List.foldl_cons, ih, groupCost_addCall, List.map_cons, List.sum_cons]
      ring
  rw [groupByContext, costSum_eq_sum_map, main]
  simp [groupCost]

/-- Every call stored in a group produced by `groupByContext` comes from the
input list and normalizes to the group's key. -/
theorem groupByContext_calls_sound (calls : List CallRecord)
    {e : String × ContextGroup} (he : e ∈ groupByContext calls)
    {c : CallRecord} (hc : c ∈ e.2.calls) :
    c ∈ calls ∧ normalizeContext c.ctx = e.1 := by
  have step : ∀ (gs : List (String × ContextGroup)) (k : String) (c₀ : CallRecord)
      (P : CallRecord → Prop),
      (∀ e' ∈ gs, ∀ c' ∈ e'.2.calls, P c' ∧ normalizeContext c'.ctx = e'.1) →
      P c₀ → normalizeContext c₀.ctx = k →
      ∀ e' ∈ addCall gs k c₀, ∀ c' ∈ e'.2.calls, P c' ∧ normalizeContext c'.ctx = e'.1 := by
    intro gs k c₀ P hinv hP hk
    induction gs with
    | nil =>
      intro e' he' c' hc'
      simp only [addCall, List.mem_singleton] at he'
      subst he'
      simp only [addToGroup, emptyGroup, List.nil_append, List.mem_singleton] at hc'
      subst hc'
      exact ⟨hP, hk⟩
    | cons f rest ih =>
      obtain ⟨k', g⟩ := f
      intro e' he' c' hc'
      simp only [addCall] at he'
      by_cases hkk : k' = k
      · rw [if_pos hkk] at he'
        rcases List.mem_cons.mp he' with rfl | htail
        · simp only [addToGroup, List.mem_append, List.mem_singleton] at hc'
          rcases hc' with hold | rfl
          · exact hinv (k', g) (List.mem_cons_self _ _) c' hold
          · exact ⟨hP, hkk ▸ hk⟩
        · exact hinv e' (List.mem_cons_of_mem _ htail) c' hc'
      · rw [if_neg hkk] at he'
        rcases List.mem_cons.mp he' with rfl | htail
        · exact hinv (k', g) (List.mem_cons_self _ _) c' hc'
        · exact ih (fun e'' he'' => hinv e'' (List.mem_cons_of_mem _ he'')) e' htail c' hc'
  have main : ∀ (m : List CallRecord) (acc : List (String × ContextGroup)),
      (∀ c' ∈ m, c' ∈ calls) →
      (∀ e' ∈ acc, ∀ c' ∈ e'.2.calls, c' ∈ calls ∧ normalizeContext c'.ctx = e'.1) →
      ∀ e' ∈ m.foldl (fun gs c' => addCall gs (normalizeContext c'.ctx) c') acc,
        ∀ c' ∈ e'.2.calls, c' ∈ calls ∧ normalizeContext c'.ctx = e'.1 := by
    intro m
    induction m with
    | nil => intro acc _ hacc; simpa using hacc
    | cons x xs ih =>
      intro acc hm hacc
      rw [List.foldl_cons]
      exact ih _ (fun c' hc' => hm c' (List.mem_cons_of_mem _ hc'))
        (step acc _ x (· ∈ calls) hacc (hm x (List.mem_cons_self _ _)) rfl)
  exact main calls [] (fun _ h => h) (by simp) e he c hc

/-! ## Claim theorems -/

/-- C6: the streaming extractor's final token counts are independent of the
chunk-boundary arrangement — any two chunk sequences reassembling to the
same event text yield identical input, output, cache-read and cache-write
results, because the hook concatenates all delivered chunks before framing
recognition and parsing. -/
theorem c6_chunk_boundary_independence (c₁ c₂ : List String)
    (h : reassemble c₁ = reassemble c₂) :
    streamExtract c₁ = streamExtract c₂ := by
  unfold streamExtract
  rw [h]

/-- Witness for C6: a streaming body delivered whole and the same body
delivered in three chunks cut mid-event yield the same extraction result. -/
theorem c6_witness :
    reassemble sseChunksA = reassemble sseChunksB ∧
    streamExtract sseChunksA = streamExtract sseChunksB :=
  ⟨by decide, c6_chunk_boundary_independence sseChunksA sseChunksB (by decide)⟩

/-- C7: the alerts view contains exactly the calls whose cost is at least
the threshold, sorted descending by cost; in particular, on two calls
costing $0.75 and $0.49 with threshold $0.50, the first appears and the
second does not. -/
theorem c7_alerts_view (calls : List CallRecord) (t : ℚ) :
    (∀ c, c ∈ alertsView calls t ↔ c ∈ calls ∧ t ≤ c.cost) ∧
    (alertsView calls t).Pairwise (fun a b => b.cost ≤ a.cost) ∧
    mkCall "x" "m" (3 / 4) ∈
      alertsView [mkCall "x" "m" (3 / 4), mkCall "x" "m" (49 / 100)] (1 / 2) ∧
    mkCall "x" "m" (49 / 100) ∉
      alertsView [mkCall "x" "m" (3 / 4), mkCall "x" "m" (49 / 100)] (1 / 2) := by
  have hmem : ∀ (cs : List CallRecord) (t' : ℚ) (c : CallRecord),
      c ∈ alertsView cs t' ↔ c ∈ cs ∧ t' ≤ c.cost := by
    intro cs t' c
    rw [alertsView, mem_sortByDesc, List.mem_filter]
    simp
  refine ⟨hmem calls t, pairwise_sortByDesc _ _, ?_, ?_⟩
  · exact (hmem _ _ _).mpr ⟨by simp, by norm_num [mkCall]⟩
  · intro hmem49
    rcases (hmem _ _ _).mp hmem49 with ⟨-, hle⟩
    norm_num [mkCall] at hle

/-- C9: appending to a log whose recorded size strictly exceeds the 50 MiB
threshold moves the whole prior log into the single `.old` slot and starts a
fresh log holding only the new line; appending below or at the threshold
extends the existing log in place and leaves the `.old` slot untouched. -/
theorem c9_rotation (fs : SinkState) (entry : String) (fd : FileData)
    (hlog : fs.log = some fd) :
    (fd.size > MAX_FILE_SIZE →
      appendLog fs entry =
        { log := some ⟨entry ++ "\n", (entry ++ "\n").utf8ByteSize⟩, old := some fd }) ∧
    (fd.size ≤ MAX_FILE_SIZE →
      appendLog fs entry =
        { log := some ⟨fd.content ++ (entry ++ "\n"), fd.size + (entry ++ "\n").utf8ByteSize⟩,
          old := fs.old }) := by
  constructor
  · intro hbig
    simp [appendLog, rotateIfNeeded, writeAppend, hlog, hbig]
  · intro hsmall
    have : ¬ fd.size > MAX_FILE_SIZE := not_lt.mpr hsmall
    simp [appendLog, rotateIfNeeded, writeAppend, hlog, this]

/-- Witness for C9: a 52428801-byte log is rotated aside (overwriting the
stale `.old`) and the fresh log holds only the new line; a 7-byte log is
extended in place. -/
theorem c9_witness :
    appendLog { log := some ⟨"prior", 52428801⟩, old := some ⟨"stale", 5⟩ } "e" =
      { log := some ⟨"e" ++ "\n", ("e" ++ "\n").utf8ByteSize⟩,
        old := some ⟨"prior", 52428801⟩ } ∧
    appendLog { log := some ⟨"prior", 7⟩, old := some ⟨"stale", 5⟩ } "e" =
      { log := some ⟨"prior" ++ ("e" ++ "\n"), 7 + ("e" ++ "\n").utf8ByteSize⟩,
        old := some ⟨"stale", 5⟩ } :=
  ⟨(c9_rotation _ "e" _ rfl).1 (by decide),
   (c9_rotation _ "e" _ rfl).2 (by decide)⟩

/-- C1 counterexample: a successful non-streaming response whose `usage`
object is empty — so both resolved token counts are zero — still produces a
record (`appendLog` is reached), refuting the claim for the non-streaming
branch. -/
theorem c1_counterexample :
    (processNonStreaming "claude-sonnet-4-5-20250929" "ctx" "preview" 100 5
        (Json.obj [("usage", Json.obj [])])).isSome = true ∧
    (processNonStreaming "claude-sonnet-4-5-20250929" "ctx" "preview" 100 5
        (Json.obj [("usage", Json.obj [])])).map
      (fun r => (r.input_tokens, r.output_tokens)) = some (0, 0) :=
  ⟨rfl, rfl⟩

/-- C1 (amended): in the streaming branch a call whose resolved input and
output token counts are both zero is never logged; in the non-streaming
branch a record is produced whenever the parsed body has a truthy `usage`
field, even when both token counts are zero. -/
theorem c1_zero_token_suppression (model ctx preview : String) (ts lat : ℕ)
    (u : SSEUsage) (data uj : Json) :
    (u.inputTokens = 0 → u.outputTokens = 0 →
      streamRecord model ctx preview ts lat u = none) ∧
    (data.getField "usage" = some uj → jsTruthy uj = true →
      (processNonStreaming model ctx preview ts lat data).isSome = true) := by
  constructor
  · intro h1 h2
    simp [streamRecord, h1, h2]
  · intro hu ht
    simp [processNonStreaming, hu, ht]

/-- Witness for C1: all-zero streaming counters produce no record, while a
non-streaming body with an empty-but-present usage object does produce one. -/
theorem c1_witness :
    streamRecord "claude-haiku-4-5-20251001" "c" "p" 1 2 ⟨0, 0, 0, 0⟩ = none ∧
    (processNonStreaming "claude-haiku-4-5-20251001" "c" "p" 1 2
        (Json.obj [("usage", Json.obj [("cache_read_input_tokens", Json.num 9)])])).isSome
      = true :=
  ⟨(c1_zero_token_suppression "claude-haiku-4-5-20251001" "c" "p" 1 2 ⟨0, 0, 0, 0⟩
      (Json.obj []) (Json.obj [])).1 rfl rfl,
   (c1_zero_token_suppression "claude-haiku-4-5-20251001" "c" "p" 1 2 ⟨0, 0, 0, 0⟩
      (Json.obj [("usage", Json.obj [("cache_read_input_tokens", Json.num 9)])])
      (Json.obj [("cache_read_input_tokens", Json.num 9)])).2 rfl rfl⟩

/-- C3: for a successful non-streaming response whose body carries a `usage`
object, the produced record's four token fields are exactly the usage
object's `input_tokens`, `output_tokens`, `cache_read_input_tokens` and
`cache_creation_input_tokens` with absent fields read as `0`, and its `cost`
is `estimateCost` on those four counts and the resolved model — whose
pricing entry falls back to the default entry for models outside the table —
rounded to 6 decimal places. -/
theorem c3_non_streaming_fields (reqModel ctx preview : String) (ts lat : ℕ)
    (data : Json) (fields : List (String × Json))
    (h : data.getField "usage" = some (Json.obj fields)) :
    (processNonStreaming reqModel ctx preview ts lat data).map
        (fun r => (r.input_tokens, r.output_tokens, r.cache_read, r.cache_write, r.cost)) =
      some (jsNumOr0 ((Json.obj fields).getField "input_tokens"),
            jsNumOr0 ((Json.obj fields).getField "output_tokens"),
            jsNumOr0 ((Json.obj fields).getField "cache_read_input_tokens"),
            jsNumOr0 ((Json.obj fields).getField "cache_creation_input_tokens"),
            round6 (estimateCost (jsStrOr (data.getField "model") reqModel)
              (jsNumOr0 ((Json.obj fields).getField "input_tokens"))
              (jsNumOr0 ((Json.obj fields).getField "output_tokens"))
              (jsNumOr0 ((Json.obj fields).getField "cache_read_input_tokens"))
              (jsNumOr0 ((Json.obj fields).getField "cache_creation_input_tokens")))) ∧
    (∀ m, PRICING.lookup m = none → priceFor m = DEFAULT_PRICING) := by
  constructor
  · simp [processNonStreaming, h, jsTruthy]
  · intro m hm
    simp [priceFor, hm]

/-- Witness for C3: a concrete opus response with partial usage fields. -/
theorem c3_witness :
    (processNonStreaming "claude-sonnet-4-5-20250929" "c" "p" 10 20
        (Json.obj [("model", Json.str "claude-opus-4-20250514"),
                   ("usage", Json.obj [("input_tokens", Json.num 100),
                                       ("output_tokens", Json.num 50)])])).map
        (fun r => (r.input_tokens, r.output_tokens, r.cache_read, r.cache_write, r.cost)) =
      some (jsNumOr0 ((Json.obj [("input_tokens", Json.num 100),
                                 ("output_tokens", Json.num 50)]).getField "input_tokens"),
            jsNumOr0 ((Json.obj [("input_tokens", Json.num 100),
                                 ("output_tokens", Json.num 50)]).getField "output_tokens"),
            jsNumOr0 ((Json.obj [("input_tokens", Json.num 100),
                                 ("output_tokens", Json.num 50)]).getField "cache_read_input_tokens"),
            jsNumOr0 ((Json.obj [("input_tokens", Json.num 100),
                                 ("output_tokens", Json.num 50)]).getField "cache_creation_input_tokens"),
            round6 (estimateCost
              (jsStrOr ((Json.obj [("model", Json.str "claude-opus-4-20250514"),
                                   ("usage", Json.obj [("input_tokens", Json.num 100),
                                                       ("output_tokens", Json.num 50)])]).getField "model")
                "claude-sonnet-4-5-20250929")
              (jsNumOr0 ((Json.obj [("input_tokens", Json.num 100),
                                    ("output_tokens", Json.num 50)]).getField "input_tokens"))
              (jsNumOr0 ((Json.obj [("input_tokens", Json.num 100),
                                    ("output_tokens", Json.num 50)]).getField "output_tokens"))
              (jsNumOr0 ((Json.obj [("input_tokens", Json.num 100),
                                    ("output_tokens", Json.num 50)]).getField "cache_read_input_tokens"))
              (jsNumOr0 ((Json.obj [("input_tokens", Json.num 100),
                                    ("output_tokens", Json.num 50)]).getField "cache_creation_input_tokens")))) :=
  (c3_non_streaming_fields "claude-sonnet-4-5-20250929" "c" "p" 10 20
    (Json.obj [("model", Json.str "claude-opus-4-20250514"),
               ("usage", Json.obj [("input_tokens", Json.num 100),
                                   ("output_tokens", Json.num 50)])])
    [("input_tokens", Json.num 100), ("output_tokens", Json.num 50)] rfl).1

/-- C10: the model stored in a non-streaming record — and used for its
pricing lookup — is the response body's `model` field, falling back to the
request body's model, which itself defaults to `"unknown"` when the request
body is missing, unparseable, or has no truthy `model` field. -/
theorem c10_model_resolution (reqModel ctx preview : String) (ts lat : ℕ)
    (data : Json) (r : CallRecord)
    (h : processNonStreaming reqModel ctx preview ts lat data = some r) :
    r.model = jsStrOr (data.getField "model") reqModel ∧
    r.cost = round6 (estimateCost (jsStrOr (data.getField "model") reqModel)
      r.input_tokens r.output_tokens r.cache_read r.cache_write) ∧
    (requestMeta "").1 = "unknown" ∧
    (∀ raw body, raw ≠ "" → parseJson raw = some body →
      (requestMeta raw).1 = jsStrOr (body.getField "model") "unknown") := by
  refine ⟨?_, ?_, rfl, ?_⟩
  · unfold processNonStreaming at h
    cases hu : data.getField "usage" with
    | none => rw [hu] at h; cases h
    | some u =>
      simp only [hu] at h
      by_cases ht : jsTruthy u = true
      · rw [if_pos ht] at h
        cases h
        rfl
      · rw [if_neg ht] at h; cases h
  · unfold processNonStreaming at h
    cases hu : data.getField "usage" with
    | none => rw [hu] at h; cases h
    | some u =>
      simp only [hu] at h
      by_cases ht : jsTruthy u = true
      · rw [if_pos ht] at h
        cases h
        rfl
      · rw [if_neg ht] at h; cases h
  · intro raw body hraw hparse
    simp [requestMeta, hraw, hparse]

/-- Witness for C10: the response names opus while the request named sonnet;
the record follows the response's model, and an empty request body resolves
to `"unknown"`. -/
theorem c10_witness :
    (mkC10record).model =
      jsStrOr ((Json.obj [("model", Json.str "claude-opus-4-20250514"),
                          ("usage", Json.obj [("input_tokens", Json.num 1)])]).getField "model")
        "claude-sonnet-4-5-20250929" ∧
    (requestMeta "\x7b\"model\":\"claude-sonnet-4-5-20250929\"\x7d").1 =
      jsStrOr ((Json.obj [("model", Json.str "claude-sonnet-4-5-20250929")]).getField "model")
        "unknown" := by
  constructor
  · exact (c10_model_resolution "claude-sonnet-4-5-20250929" "c" "p" 1 2
      (Json.obj [("model", Json.str "claude-opus-4-20250514"),
                 ("usage", Json.obj [("input_tokens", Json.num 1)])]) mkC10record rfl).1
  · exact (c10_model_resolution "claude-sonnet-4-5-20250929" "c" "p" 1 2
      (Json.obj [("model", Json.str "claude-opus-4-20250514"),
                 ("usage", Json.obj [("input_tokens", Json.num 1)])]) mkC10record rfl).2.2.2
      "\x7b\"model\":\"claude-sonnet-4-5-20250929\"\x7d"
      (Json.obj [("model", Json.str "claude-sonnet-4-5-20250929")])
      (by decide) (by rfl)

/-- C2 counterexample: for a matched streaming call the wrapper does not
return the identical response object the original fetch produced — it builds
a fresh `Response` around the second branch of the teed body, so the
returned value differs from the original (here: body handle 2 instead
of 0), refuting the "identical response object, including for matched
streaming calls" part of the claim. -/
theorem c2_counterexample :
    patchedFetch (fun _ => Except.ok ⟨200, "OK", [("x", "y")], some 0⟩)
        ⟨"https://api.anthropic.com/v1/messages", some "\x7b\"stream\":true\x7d"⟩ =
      Except.ok ⟨200, "OK", [("x", "y")], some 2⟩ ∧
    (⟨200, "OK", [("x", "y")], some 2⟩ : JsResponse) ≠
      ⟨200, "OK", [("x", "y")], some 0⟩ :=
  ⟨rfl, by decide⟩

/-- C2 (amended): the wrapper forwards the very same request to the original
fetch and is transparent except on matched streaming calls — unmatched calls
pass through untouched, rejections propagate unchanged, matched non-streaming
(or non-ok, or body-less) responses are returned as the identical object,
and a matched streaming ok response with a body is replaced by a fresh
response with identical status, status text and headers whose body is the
second branch of the teed original body. -/
theorem c2_transparency (ofetch : FetchRequest → Except String JsResponse)
    (req : FetchRequest) :
    (interceptsUrl req.url = false → patchedFetch ofetch req = ofetch req) ∧
    (∀ e, ofetch req = .error e → patchedFetch ofetch req = .error e) ∧
    (∀ resp, ofetch req = .ok resp →
      ((requestMeta (req.rawBody.getD "")).2 = false ∨ resp.isOk = false ∨
        resp.body = none) →
      patchedFetch ofetch req = .ok resp) ∧
    (∀ resp h, interceptsUrl req.url = true → ofetch req = .ok resp →
      resp.body = some h →
      (requestMeta (req.rawBody.getD "")).2 = true → resp.isOk = true →
      patchedFetch ofetch req =
        .ok { status := resp.status, statusText := resp.statusText,
              headers := resp.headers, body := some (teeStream h).2 }) := by
  refine ⟨?_, ?_, ?_, ?_⟩
  · intro hmiss
    simp [patchedFetch, hmiss]
  · intro e herr
    by_cases hm : interceptsUrl req.url
    · simp [patchedFetch, hm, herr]
    · simp [patchedFetch, hm, herr]
  · intro resp hok hcase
    by_cases hm : interceptsUrl req.url
    · cases hb : resp.body with
      | none => simp [patchedFetch, hm, hok, hb]
      | some h =>
        rcases hcase with hstream | hnotok | hnone
        · simp [patchedFetch, hm, hok, hb, hstream]
        · simp [patchedFetch, hm, hok, hb, hnotok]
        · rw [hb] at hnone; cases hnone
    · simp [patchedFetch, hm, hok]
  · intro resp h hm hok hbody hstream hisok
    simp [patchedFetch, hm, hok, hbody, hstream, hisok]

/-- Witness for C2: a non-Anthropic URL passes through identically, and the
concrete matched streaming call is rewrapped around the teed body. -/
theorem c2_witness :
    patchedFetch (fun _ => Except.ok ⟨200, "OK", [], some 0⟩)
        ⟨"https://example.com/other", none⟩ =
      (fun (_ : FetchRequest) => Except.ok (⟨200, "OK", [], some 0⟩ : JsResponse))
        ⟨"https://example.com/other", none⟩ ∧
    patchedFetch (fun _ => Except.ok ⟨201, "Created", [("a", "b")], some 5⟩)
        ⟨"https://api.anthropic.com/v1/messages?beta=true", some "\x7b\"stream\":true,\"model\":\"m\"\x7d"⟩ =
      Except.ok { status := 201, statusText := "Created", headers := [("a", "b")],
                  body := some (teeStream 5).2 } :=
  ⟨(c2_transparency (fun _ => Except.ok ⟨200, "OK", [], some 0⟩)
      ⟨"https://example.com/other", none⟩).1 (by decide),
   (c2_transparency (fun _ => Except.ok ⟨201, "Created", [("a", "b")], some 5⟩)
      ⟨"https://api.anthropic.com/v1/messages?beta=true", some "\x7b\"stream\":true,\"model\":\"m\"\x7d"⟩).2.2.2
      ⟨201, "Created", [("a", "b")], some 5⟩ 5 (by decide) rfl rfl (by decide) (by decide)⟩

/-- C5 counterexample: the raw label `"hello"` matches no pattern and does
not begin with either recognized marker (`system:` / `cron:`), yet it is
mapped to the generic `"session"` bucket — refuting the "only raw labels
that … begin with a recognized marker" part of the claim. -/
theorem c5_counterexample :
    normalizeContext "hello" = "session" ∧
    patternLabel (jsToLowerStr "hello") = none ∧
    strStartsWith "hello" "system:" = false ∧
    strStartsWith "hello" "cron:" = false := by
  refine ⟨by decide, rfl, by decide, by decide⟩

/-- C5 (amended): for a label that is nonempty, not `cron:`-prefixed, not
the literal `"compaction"` and not `system:`-prefixed, normalization is
exactly a first-match-wins, case-insensitive substring lookup in the fixed
ordered pattern table — and every label that matches no pattern falls into
the generic `"session"` bucket (not only marker-prefixed ones; `system:`
labels are sent to `"session"` before the table is consulted). -/
theorem c5_pattern_stage (ctx : String)
    (h₀ : ctx ≠ "") (h₁ : strStartsWith ctx "cron:" = false)
    (h₂ : ctx ≠ "compaction") (h₃ : strStartsWith ctx "system:" = false) :
    normalizeContext ctx = (patternLabel (jsToLowerStr ctx)).getD "session" := by
  unfold normalizeContext
  simp only [h₀, h₁, h₂, h₃, Bool.false_eq_true, if_false, ite_false]
  simp only [patternLabel, CONTEXT_PATTERNS, List.findSome?_cons, List.any_cons,
    List.any_nil, Bool.or_false]
  by_cases c1 : strIncludes (jsToLowerStr ctx) "compacted into the following summary" = true
  · simp [c1]
  simp only [c1, Bool.false_eq_true, if_false, ite_false]
  by_cases c2 : (strIncludes (jsToLowerStr ctx) "jobs-monitor" || strIncludes (jsToLowerStr ctx) "вакансий") = true
  · simp [c2]
  simp only [c2, Bool.false_eq_true, if_false, ite_false]
  by_cases c3 : (strIncludes (jsToLowerStr ctx) "reddit-monitor" || strIncludes (jsToLowerStr ctx) "подборку интересных постов") = true
  · simp [c3]
  simp only [c3, Bool.false_eq_true, if_false, ite_false]
  by_cases c4 : (strIncludes (jsToLowerStr ctx) "reddit-seo-digest" || strIncludes (jsToLowerStr ctx) "r/seo digest") = true
  · simp [c4]
  simp only [c4, Bool.false_eq_true, if_false, ite_false]
  by_cases c5 : (strIncludes (jsToLowerStr ctx) "product hunt" || strIncludes (jsToLowerStr ctx) "producthunt") = true
  · simp [c5]
  simp only [c5, Bool.false_eq_true, if_false, ite_false]
  by_cases c6 : strIncludes (jsToLowerStr ctx) "moltbook" = true
  · simp [c6]
  simp only [c6, Bool.false_eq_true, if_false, ite_false]
  by_cases c7 : (strIncludes (jsToLowerStr ctx) "gmail" || strIncludes (jsToLowerStr ctx) "входящие письма") = true
  · simp [c7]
  simp only [c7, Bool.false_eq_true, if_false, ite_false]
  by_cases c8 : (strIncludes (jsToLowerStr ctx) "flashcard" || strIncludes (jsToLowerStr ctx) "morning greek") = true
  · simp [c8]
  simp only [c8, Bool.false_eq_true, if_false, ite_false]
  by_cases c9 : (strIncludes (jsToLowerStr ctx) "греческого урока" || strIncludes (jsToLowerStr ctx) "greek lesson") = true
  · simp [c9]
  simp only [c9, Bool.false_eq_true, if_false, ite_false]
  by_cases c10 : strIncludes (jsToLowerStr ctx) "weekly greek test" = true
  · simp [c10]
  simp only [c10, Bool.false_eq_true, if_false, ite_false]
  by_cases c11 : (strIncludes (jsToLowerStr ctx) "seo analysis" || strIncludes (jsToLowerStr ctx) "seo deep dive") = true
  · simp [c11]
  simp only [c11, Bool.false_eq_true, if_false, ite_false]
  by_cases c12 : strIncludes (jsToLowerStr ctx) "memory maintenance" = true
  · simp [c12]
  simp only [c12, Bool.false_eq_true, if_false, ite_false]
  simp [List.findSome?]

/-- Witness for C5: the label `"Check GMAIL inbox"` (no marker, mixed case)
goes through the pattern stage. -/
theorem c5_witness :
    normalizeContext "Check GMAIL inbox" =
      (patternLabel (jsToLowerStr "Check GMAIL inbox")).getD "session" :=
  c5_pattern_stage "Check GMAIL inbox" (by decide) (by decide) (by decide) (by decide)

/-- C8 (amended): the top-contexts view is sorted descending by total cost
(non-strictly: groups with equal cost keep their insertion order), and the
percentage-of-total values computed for all context groups sum to at most
100 — exactly 100 when the total is positive, 0 otherwise. -/
theorem c8_top_sorted_and_pct (calls : List CallRecord) (limit : ℕ) :
    (topView calls limit).Pairwise (fun a b => b.2.cost ≤ a.2.cost) ∧
    pctSum calls ≤ 100 := by
  constructor
  · exact List.Pairwise.sublist (List.take_sublist _ _) (pairwise_sortByDesc _ _)
  · unfold pctSum
    by_cases hT : costSum calls > 0
    · simp only [pctOf, if_pos hT]
      have hfun : (fun e : String × ContextGroup => e.2.cost / costSum calls * 100) =
          fun e => e.2.cost * (100 / costSum calls) := by
        funext e
        ring
      rw [hfun, List.sum_map_mul_right]
      have hsum : (List.map (fun e : String × ContextGroup => e.2.cost)
          (groupByContext calls)).sum = costSum calls := by
        have := groupCost_groupByContext calls
        simpa [groupCost] using this
      rw [hsum]
      have hne : costSum calls ≠ 0 := ne_of_gt hT
      field_simp
    · simp only [pctOf, if_neg hT]
      have hzero : ∀ gs : List (String × ContextGroup),
          (gs.map fun _ => (0 : ℚ)).sum = 0 := by
        intro gs
        induction gs with
        | nil => simp
        | cons g tl ih => simp [ih]
      rw [hzero]
      norm_num

/-- C8 counterexample: two context groups with equal total cost give a top
view that is not *strictly* descending — adjacent entries tie. -/
theorem c8_counterexample :
    ¬ (topEntries tiedPairSample).Pairwise (fun a b => a.2.cost > b.2.cost) := by
  have hG : groupByContext tiedPairSample =
      [("compaction",
         addToGroup emptyGroup (mkCall "compaction" "claude-sonnet-4-5-20250929" (1 / 20))),
       ("gmail-digest",
         addToGroup emptyGroup (mkCall "Check GMAIL inbox" "claude-sonnet-4-5-20250929" (1 / 20)))] := rfl
  have hsort : topEntries tiedPairSample =
      [("compaction",
         addToGroup emptyGroup (mkCall "compaction" "claude-sonnet-4-5-20250929" (1 / 20))),
       ("gmail-digest",
         addToGroup emptyGroup (mkCall "Check GMAIL inbox" "claude-sonnet-4-5-20250929" (1 / 20)))] := by
    rw [topEntries, hG]
    unfold sortByDesc
    simp only [List.foldl_cons, List.foldl_nil, insertByDesc]
    rw [if_pos (by norm_num [addToGroup, emptyGroup, mkCall])]
  intro h
  rw [hsort] at h
  rcases List.pairwise_cons.mp h with ⟨hrel, -⟩
  have := hrel _ (List.mem_singleton.mpr rfl)
  norm_num [addToGroup, emptyGroup, mkCall] at this

/-- C4: the weekly report's compaction rule fires exactly when strictly more
than 10 calls normalize to the canonical `"compaction"` bucket, contributing
70 % of that bucket's total cost to the estimated savings; and the
model-misuse rule never flags a summarization-pattern context all of whose
calls use models in the fixed cheap-model set. -/
theorem c4_report_rules (calls : List CallRecord) (ctx : String) :
    ((compactionBucket calls).length > 10 →
      ReportIssue.compactionLoop (compactionBucket calls).length
        (costSum (compactionBucket calls)) ∈ (detectIssues calls).1) ∧
    ((compactionBucket calls).length ≤ 10 →
      ∀ n q, ReportIssue.compactionLoop n q ∉ (detectIssues calls).1) ∧
    ((detectIssues calls).2 =
      (if (compactionBucket calls).length > 10
       then costSum (compactionBucket calls) * (7 / 10) else 0) +
      ((topEntries calls).filterMap misuseCheck).foldl (fun s i => s + issueSavings i) 0) ∧
    (isSummarizationCtx ctx = true →
      (∀ c ∈ calls, normalizeContext c.ctx = ctx → c.model ∈ CHEAP_MODELS) →
      ∀ n q sv, ReportIssue.modelMisuse ctx n q sv ∉ (detectIssues calls).1) := by
  refine ⟨?_, ?_, rfl, ?_⟩
  · intro h
    simp only [detectIssues]
    rw [if_pos h]
    simp
  · intro h n q hmem
    have hnot : ¬ (compactionBucket calls).length > 10 := by omega
    simp only [detectIssues] at hmem
    rw [if_neg hnot] at hmem
    simp only [List.nil_append, List.mem_append] at hmem
    rcases hmem with hmis | hexp
    · rcases List.mem_filterMap.mp hmis with ⟨e, -, he⟩
      simp only [misuseCheck] at he
      split_ifs at he <;> simp at he
    · split_ifs at hexp <;> simp at hexp
  · intro hsum hcheap n q sv hmem
    simp only [detectIssues, List.mem_append] at hmem
    rcases hmem with (hcomp | hmis) | hexp
    · split_ifs at hcomp <;> simp at hcomp
    · rcases List.mem_filterMap.mp hmis with ⟨e, heTop, he⟩
      simp only [misuseCheck] at he
      split_ifs at he with hpat hlen
      · have h1 := Option.some.inj he
        rw [ReportIssue.modelMisuse.injEq] at h1
        obtain ⟨hctx, -, -, -⟩ := h1
        obtain ⟨c, hcfil⟩ := List.exists_mem_of_length_pos hlen
        rcases List.mem_filter.mp hcfil with ⟨hcmem, hcnotcheap⟩
        have heG : e ∈ groupByContext calls := by
          rw [topEntries] at heTop
          exact (mem_sortByDesc _ e _).mp heTop
        have hsound := groupByContext_calls_sound calls heG hcmem
        have hcm : c.model ∈ CHEAP_MODELS :=
          hcheap c hsound.1 (hsound.2.trans hctx)
        have : CHEAP_MODELS.contains c.model = true := List.elem_eq_true_of_mem hcm
        rw [this] at hcnotcheap
        cases hcnotcheap
    · split_ifs at hexp <;> simp at hexp

/-- Witness for C4: on the end-to-end sample (12 compaction calls, 3 cheap
gmail-digest calls) the compaction issue is reported and no misuse issue
names gmail-digest. -/
theorem c4_witness :
    ReportIssue.compactionLoop (compactionBucket weeklySample).length
      (costSum (compactionBucket weeklySample)) ∈ (detectIssues weeklySample).1 ∧
    (∀ n q sv, ReportIssue.modelMisuse "gmail-digest" n q sv ∉ (detectIssues weeklySample).1) :=
  ⟨(c4_report_rules weeklySample "gmail-digest").1 (by decide),
   (c4_report_rules weeklySample "gmail-digest").2.2.2 (by decide) (by decide)⟩

end OpenclawCosts
